import Mathlib

/-!
Shallow embedding of `src/pages/index.tsx` of the fantasy-quest repository:
a single-page chat interface proxying a text adventure to the window.ai
browser extension.  React state hooks become fields of `AppState`, DOM/stream
events become an `Event` inductive, and each handler becomes a pure function
from state and event to the next state together with the list of observable
effects (toasts shown, generateText calls issued).
-/

/-- Message roles of the window.ai `ChatMessage` type. -/
inductive Role where
  | system
  | user
  | assistant
deriving DecidableEq, Repr

/-- The `ChatMessage` type from window.ai: a role together with free-text content. -/
structure ChatMessage where
  role : Role
  content : String
deriving DecidableEq, Repr

/-- The `MessageOutput` type from window.ai, as consumed by the streaming callback:
`result.message.content` is the streamed chunk. -/
structure MessageOutput where
  message : ChatMessage
deriving DecidableEq, Repr

/-- The first argument of `generateText`: `\x7b messages: [...] \x7d`. -/
structure GenerateTextInput where
  messages : List ChatMessage
deriving DecidableEq, Repr

/-- The `streamingOptions` object passed to `generateText`.  The
`onStreamResult` field of the source is a closure over the local variable
`updatedMessages`; here the closure is represented by the captured value of
that variable (`onStreamResultClosure`), its code being the top-level
function `onStreamResult` below. -/
structure StreamingOptions where
  temperature : Rat
  maxTokens : Nat
  onStreamResultClosure : List ChatMessage
deriving DecidableEq, Repr

/-- Observable effects of the handlers: the four toasts and the
`generateText` request to the extension. -/
inductive Effect where
  | toastSuccessDetected
  | toastInstallPrompt
  | toastErrorStreaming
  | toastErrorGeneration
  | generateText (input : GenerateTextInput) (options : StreamingOptions)
deriving DecidableEq, Repr

/-- The React state of the `App` component.  `aiPresent` models whether
`aiRef.current` is non-null (the result of the `getWindowAI` probe).
`closures` holds, in creation order, the current value of the local variable
`updatedMessages` captured by each `onStreamResult` closure created in
`handleNewMessage`; the streams are not cancellable, so every closure stays
live. -/
structure AppState where
  messages : List ChatMessage
  inputValue : String
  loading : Bool
  isGameStarted : Bool
  aiPresent : Bool
  closures : List (List ChatMessage)
deriving DecidableEq, Repr

/-- JavaScript truthiness of a `string | null` value: `null` and the empty
string are falsy. -/
def jsTruthyStr : Option String → Bool
  | none => false
  | some s => s != ""

/-- JavaScript `Array.prototype.map` with its index argument, as used by the
streaming callback and by the render function. -/
def mapWithIndex (f : Nat → α → β) : Nat → List α → List β
  | _, [] => []
  | i, a :: as => f i a :: mapWithIndex f (i + 1) as

/-- The template literal `systemPrompt` of `handleNewMessage`, byte for byte
(including the leading and trailing indentation of the template literal). -/
def systemPrompt : String :=
  "\n      Start a text adventure game called \"Fantasy Quest\" in a fantasy world the player fights monsters, collects loot, levels up, with the ultimate goal of defeating the dragon king. The player starts in the village of Greenhaven. Allow the user to choose party members as well. Fill in the details. Please let the player know about the goal of defeating the dragon king at the beginning of the game. I want to play this as a text adventure. Show stats such as Health, Experience, Level, Gold, Weapons, Armor, Ring when appropiate, with the title “Current Stats:”. The numerical stats like Health, Experience, Level, Gold should actually be computed correctly. When the player levels up, you say a sentence saying that the player leveled up and to what level they leveled up to. Give choices using a numbered list. Only provide one list of choices at a time. Don’t say anything after the numbered list of choices since it should be obvious to the player that they can choose a number. Don’t use rolling of dice in the game. The dragon king should be difficult to defeat. If the player dies, the player respawns at the village of Greenhaven but with half their gold gone. During the journey, the player can encounter monsters, and collect loot (e.g. better weapons, armor, and rings). Again, you are the game master, so you provide one list of choices and the player has to reply with their choice. Please wait for the player to select a choice before providing more lists of choices. Again, don’t choose the choice for the player; wait for the player to choose the choice. The player is me. The game only ends after the player defeats the dragon king. Allow the player to view their inventory. Don’t let the player teleport to other locations (e.g. teleport directly to the battle with the dragon king). The amount of Gold the player has cannot be negative; if the player does not have enough gold to buy and item, don’t allow the player to buy it. Please do not respond for the player; you are the game master only.\n    "

/-- Result of one invocation of the `onStreamResult` callback:
the new value of the captured local variable `updatedMessages`, the argument
of the `setMessages` call when one was made, and the toasts shown.
(`setLoading(false)` is unconditional and is applied by `step`.) -/
structure StreamOutcome where
  updatedMessages : List ChatMessage
  setMessagesTo : Option (List ChatMessage)
  effects : List Effect
deriving DecidableEq, Repr

/-- The body of the `onStreamResult` callback of `streamingOptions`, acting
on the captured `updatedMessages`.  `none` models the `TypeError` the source
would raise reading `.role` of `undefined` when `updatedMessages` is empty
(never reached: the closure is created holding at least one message). -/
def onStreamResult (updatedMessages : List ChatMessage)
    (result : Option MessageOutput) (error : Option String) :
    Option StreamOutcome :=
  if jsTruthyStr error then
    some { updatedMessages := updatedMessages
           setMessagesTo := none
           effects := [Effect.toastErrorStreaming] }
  else
    match result with
    | some r =>
      match updatedMessages.getLast? with
      | none => none
      | some lastMessage =>
        let newMessages :=
          if lastMessage.role = Role.user then
            updatedMessages ++
              [{ role := Role.assistant, content := r.message.content }]
          else
            mapWithIndex
              (fun index message =>
                if index = updatedMessages.length - 1 then
                  { message with content := message.content ++ r.message.content }
                else
                  message)
              0 updatedMessages
        some { updatedMessages := newMessages
               setMessagesTo := some newMessages
               effects := [] }
    | none =>
      some { updatedMessages := updatedMessages
             setMessagesTo := none
             effects := [] }

/-- The `handleNewMessage` handler: append the user message, set the loading flag, clear
the input, create a fresh `onStreamResult` closure and issue the
`generateText` call whose message list is the system prompt followed by the
updated transcript. -/
def handleNewMessage (s : AppState) (messageInput : String) :
    AppState × List Effect :=
  let userMessage : ChatMessage := { role := Role.user, content := messageInput }
  let updatedMessages : List ChatMessage := s.messages ++ [userMessage]
  ({ s with
      messages := s.messages ++ [userMessage]
      loading := true
      inputValue := ""
      closures := s.closures ++ [updatedMessages] },
   [Effect.generateText
      { messages :=
          { role := Role.system, content := systemPrompt } :: updatedMessages }
      { temperature := 7 / 10
        maxTokens := 1000
        onStreamResultClosure := updatedMessages }])

/-- The events the component reacts to after load: typing in the input
field, clicking Start Game, submitting the chat form, an invocation of the
`onStreamResult` callback of the `k`-th closure ever created (the streams
are not cancellable, so superseded closures may still fire), and the
`generateText` promise rejecting (the `catch` branch). -/
inductive Event where
  | inputChange (value : String)
  | startGameClick
  | sendMessageSubmit
  | stream (k : Nat) (result : Option MessageOutput) (error : Option String)
  | generateThrow
deriving DecidableEq, Repr

/-- One step of the component: dispatch an event to its handler. -/
def step (s : AppState) (e : Event) : AppState × List Effect :=
  match e with
  | Event.inputChange v => ({ s with inputValue := v }, [])
  | Event.startGameClick =>
    if s.aiPresent = false then
      (s, [Effect.toastInstallPrompt])
    else
      let r := handleNewMessage s "Start Game"
      ({ r.1 with isGameStarted := true }, r.2)
  | Event.sendMessageSubmit =>
    if s.inputValue = "" then
      (s, [])
    else if s.aiPresent = false then
      (s, [Effect.toastInstallPrompt])
    else
      handleNewMessage s s.inputValue
  | Event.stream k result error =>
    match s.closures.get? k with
    | none => (s, [])
    | some upd =>
      match onStreamResult upd result error with
      | none => (s, [])
      | some o =>
        ({ s with
            loading := false
            messages := o.setMessagesTo.getD s.messages
            closures := s.closures.set k o.updatedMessages },
         o.effects)
  | Event.generateThrow => (s, [Effect.toastErrorGeneration])

/-- The state before the `useEffect` probe has run. -/
def initialState : AppState :=
  { messages := []
    inputValue := ""
    loading := false
    isGameStarted := false
    aiPresent := false
    closures := [] }

/-- The `init` function of the mount-time `useEffect` (dependency list
`[]`, hence run exactly once at load): store the probe result and show the
success toast or the persistent install prompt. -/
def load (present : Bool) : AppState × List Effect :=
  ({ initialState with aiPresent := present },
   if present then [Effect.toastSuccessDetected]
   else [Effect.toastInstallPrompt])

/-- Run a sequence of events from a state. -/
def run (s : AppState) : List Event → AppState
  | [] => s
  | e :: es => run (step s e).1 es

/-- States the loaded component can reach. -/
def Reachable (present : Bool) (s : AppState) : Prop :=
  ∃ events : List Event, run (load present).1 events = s

/-- One admissible transcript transition per the spec's data model: append
one message, or grow the content of a final assistant message in place. -/
def TranscriptStep (old new : List ChatMessage) : Prop :=
  (∃ m : ChatMessage, new = old ++ [m]) ∨
  (∃ (pre : List ChatMessage) (last : ChatMessage) (extra : String),
    old = pre ++ [last] ∧ last.role = Role.assistant ∧
    new = pre ++ [{ last with content := last.content ++ extra }])

/-- A rendered transcript entry: the empty `<div>` or a message bubble
(whose styling depends on the role and whose text is the content). -/
inductive Rendered where
  | empty
  | bubble (role : Role) (content : String)
deriving DecidableEq, Repr

/-- The `messages.map((message, index) => ...)` expression of the render
function: index 0 becomes an empty element, every other message a bubble. -/
def renderMessages (messages : List ChatMessage) : List Rendered :=
  mapWithIndex
    (fun index message =>
      if index = 0 then Rendered.empty
      else Rendered.bubble message.role message.content)
    0 messages

theorem mapWithIndex_nil (f : Nat → α → β) (k : Nat) :
    mapWithIndex f k [] = [] := rfl

theorem mapWithIndex_cons (f : Nat → α → β) (k : Nat) (a : α) (as : List α) :
    mapWithIndex f k (a :: as) = f k a :: mapWithIndex f (k + 1) as := rfl

theorem mapWithIndex_length (f : Nat → α → β) :
    ∀ (k : Nat) (l : List α), (mapWithIndex f k l).length = l.length := by
  intro k l
  induction l generalizing k with
  | nil => rfl
  | cons a as ih => simp [mapWithIndex_cons, ih]

theorem mapWithIndex_append_singleton (f : Nat → α → β) :
    ∀ (k : Nat) (l : List α) (a : α),
      mapWithIndex f k (l ++ [a]) = mapWithIndex f k l ++ [f (k + l.length) a] := by
  intro k l a
  induction l generalizing k with
  | nil => simp [mapWithIndex_cons, mapWithIndex_nil]
  | cons b bs ih =>
    simp only [List.cons_append, mapWithIndex_cons, ih (k + 1), List.length_cons]
    have : k + 1 + bs.length = k + (bs.length + 1) := by omega
    rw [this]

theorem mapWithIndex_id_of_lt (f : Nat → α → α) (n : Nat)
    (hf : ∀ i a, i < n → f i a = a) :
    ∀ (k : Nat) (l : List α), k + l.length ≤ n → mapWithIndex f k l = l := by
  intro k l
  induction l generalizing k with
  | nil => intro _; rfl
  | cons a as ih =>
    intro h
    simp only [List.length_cons] at h
    rw [mapWithIndex_cons, hf k a (by omega), ih (k + 1) (by omega)]

theorem mapWithIndex_bubble_shift :
    ∀ (rest : List ChatMessage) (k : Nat),
      mapWithIndex
        (fun index message =>
          if index = 0 then Rendered.empty
          else Rendered.bubble message.role message.content)
        (k + 1) rest =
      rest.map (fun message => Rendered.bubble message.role message.content) := by
  intro rest
  induction rest with
  | nil => intro k; rfl
  | cons a as ih =>
    intro k
    rw [mapWithIndex_cons, List.map_cons, ih (k + 1)]
    simp

/-- The in-place extension branch of the streaming callback rewrites exactly
the final element of the list and leaves the rest untouched. -/
theorem mapWithIndex_extend_last (g : ChatMessage → ChatMessage)
    (l : List ChatMessage) (hl : l ≠ []) :
    mapWithIndex (fun index m => if index = l.length - 1 then g m else m) 0 l =
      l.dropLast ++ [g (l.getLast hl)] := by
  conv_lhs => rw [← List.dropLast_append_getLast hl]
  rw [mapWithIndex_append_singleton]
  have hlen : l.dropLast.length = l.length - 1 := List.length_dropLast l
  rw [mapWithIndex_id_of_lt _ (l.length - 1)
      (by intro i a hi; simp [Nat.ne_of_lt hi]) 0 l.dropLast (by omega)]
  simp [hlen]

/-- A transcript message is from the player or from the model. -/
def MsgOk (m : ChatMessage) : Prop :=
  m.role = Role.user ∨ m.role = Role.assistant

/-- State invariant: every transcript message has role user or assistant,
and every live closure holds a nonempty transcript of such messages. -/
def StateInv (s : AppState) : Prop :=
  (∀ m ∈ s.messages, MsgOk m) ∧
  (∀ l ∈ s.closures, l ≠ [] ∧ ∀ m ∈ l, MsgOk m)

theorem onStreamResult_error (upd : List ChatMessage)
    (result : Option MessageOutput) (error : Option String)
    (herr : jsTruthyStr error = true) :
    onStreamResult upd result error =
      some { updatedMessages := upd
             setMessagesTo := none
             effects := [Effect.toastErrorStreaming] } := by
  simp [onStreamResult, herr]

theorem onStreamResult_none (upd : List ChatMessage) (error : Option String)
    (herr : jsTruthyStr error = false) :
    onStreamResult upd none error =
      some { updatedMessages := upd
             setMessagesTo := none
             effects := [] } := by
  simp [onStreamResult, herr]

theorem onStreamResult_chunk (upd : List ChatMessage) (r : MessageOutput)
    (error : Option String) (herr : jsTruthyStr error = false)
    (hne : upd ≠ []) :
    ∃ nt : List ChatMessage,
      onStreamResult upd (some r) error =
        some { updatedMessages := nt
               setMessagesTo := some nt
               effects := [] } ∧
      ((upd.getLast hne).role = Role.user →
        nt = upd ++ [{ role := Role.assistant, content := r.message.content }]) ∧
      ((upd.getLast hne).role ≠ Role.user →
        nt = upd.dropLast ++
          [{ upd.getLast hne with
              content := (upd.getLast hne).content ++ r.message.content }]) := by
  rw [onStreamResult]
  rw [herr]
  simp only [Bool.false_eq_true, if_false]
  rw [List.getLast?_eq_getLast_of_ne_nil hne]
  by_cases hrole : (upd.getLast hne).role = Role.user
  · refine ⟨upd ++ [{ role := Role.assistant, content := r.message.content }], ?_, ?_, ?_⟩
    · simp [hrole]
    · intro _; rfl
    · intro h; exact absurd hrole h
  · refine ⟨upd.dropLast ++
      [{ upd.getLast hne with
          content := (upd.getLast hne).content ++ r.message.content }], ?_, ?_, ?_⟩
    · simp only [hrole, if_false]
      rw [mapWithIndex_extend_last
        (fun m => { m with content := m.content ++ r.message.content }) upd hne]
    · intro h; exact absurd h hrole
    · intro _; rfl

/-- Any defined outcome of the callback keeps the closure transcript
nonempty, keeps its roles in the user/assistant set, and only ever passes
the updated closure transcript to `setMessages`. -/
theorem onStreamResult_inv (upd : List ChatMessage)
    (result : Option MessageOutput) (error : Option String)
    (o : StreamOutcome) (hne : upd ≠ []) (hok : ∀ m ∈ upd, MsgOk m)
    (ho : onStreamResult upd result error = some o) :
    o.updatedMessages ≠ [] ∧ (∀ m ∈ o.updatedMessages, MsgOk m) ∧
    (∀ l, o.setMessagesTo = some l → l = o.updatedMessages) := by
  by_cases herr : jsTruthyStr error = true
  · rw [onStreamResult_error upd result error herr] at ho
    cases ho
    exact ⟨hne, hok, by intro l hl; cases hl⟩
  · have herr' : jsTruthyStr error = false := by
      cases h : jsTruthyStr error
      · rfl
      · exact absurd h herr
    cases result with
    | none =>
      rw [onStreamResult_none upd error herr'] at ho
      cases ho
      exact ⟨hne, hok, by intro l hl; cases hl⟩
    | some r =>
      obtain ⟨nt, hnt, hu, hna⟩ := onStreamResult_chunk upd r error herr' hne
      rw [hnt] at ho
      cases ho
      by_cases hrole : (upd.getLast hne).role = Role.user
      · rw [hu hrole]
        refine ⟨by simp, ?_, by intro l hl; cases hl; rfl⟩
        intro m hm
        rcases List.mem_append.mp hm with h | h
        · exact hok m h
        · rcases List.mem_singleton.mp h with rfl
          exact Or.inr rfl
      · rw [hna hrole]
        refine ⟨by simp, ?_, by intro l hl; cases hl; rfl⟩
        intro m hm
        rcases List.mem_append.mp hm with h | h
        · exact hok m (List.dropLast_subset upd h)
        · rcases List.mem_singleton.mp h with rfl
          rcases hok _ (List.getLast_mem hne) with h | h
          · exact absurd h hrole
          · exact Or.inr h

theorem handleNewMessage_state (s : AppState) (v : String) :
    (handleNewMessage s v).1 =
      { s with
          messages := s.messages ++ [{ role := Role.user, content := v }]
          loading := true
          inputValue := ""
          closures :=
            s.closures ++ [s.messages ++ [{ role := Role.user, content := v }]] } :=
  rfl

theorem handleNewMessage_effects (s : AppState) (v : String) :
    (handleNewMessage s v).2 =
      [Effect.generateText
        { messages := { role := Role.system, content := systemPrompt } ::
            (s.messages ++ [{ role := Role.user, content := v }]) }
        { temperature := 7 / 10
          maxTokens := 1000
          onStreamResultClosure :=
            s.messages ++ [{ role := Role.user, content := v }] }] :=
  rfl

theorem handleNewMessage_inv (s : AppState) (v : String) (h : StateInv s) :
    StateInv (handleNewMessage s v).1 := by
  obtain ⟨hm, hc⟩ := h
  rw [handleNewMessage_state]
  refine ⟨?_, ?_⟩
  · intro m hm'
    rcases List.mem_append.mp hm' with h' | h'
    · exact hm m h'
    · rcases List.mem_singleton.mp h' with rfl
      exact Or.inl rfl
  · intro l hl
    rcases List.mem_append.mp hl with h' | h'
    · exact hc l h'
    · rcases List.mem_singleton.mp h' with rfl
      refine ⟨by simp, ?_⟩
      intro m hm'
      rcases List.mem_append.mp hm' with h' | h'
      · exact hm m h'
      · rcases List.mem_singleton.mp h' with rfl
        exact Or.inl rfl

theorem step_inputChange (s : AppState) (v : String) :
    step s (Event.inputChange v) = ({ s with inputValue := v }, []) := rfl

theorem step_generateThrow (s : AppState) :
    step s Event.generateThrow = (s, [Effect.toastErrorGeneration]) := rfl

theorem step_startGame_absent (s : AppState) (hp : s.aiPresent = false) :
    step s Event.startGameClick = (s, [Effect.toastInstallPrompt]) := by
  simp [step, hp]

theorem step_startGame_present (s : AppState) (hp : s.aiPresent = true) :
    step s Event.startGameClick =
      ({ (handleNewMessage s "Start Game").1 with isGameStarted := true },
       (handleNewMessage s "Start Game").2) := by
  simp [step, hp]

theorem step_send_empty (s : AppState) (hv : s.inputValue = "") :
    step s Event.sendMessageSubmit = (s, []) := by
  simp [step, hv]

theorem step_send_absent (s : AppState) (hv : s.inputValue ≠ "")
    (hp : s.aiPresent = false) :
    step s Event.sendMessageSubmit = (s, [Effect.toastInstallPrompt]) := by
  simp [step, hv, hp]

theorem step_send_present (s : AppState) (hv : s.inputValue ≠ "")
    (hp : s.aiPresent = true) :
    step s Event.sendMessageSubmit = handleNewMessage s s.inputValue := by
  simp [step, hv, hp]

theorem step_stream_noclosure (s : AppState) (k : Nat)
    (result : Option MessageOutput) (error : Option String)
    (hget : s.closures.get? k = none) :
    step s (Event.stream k result error) = (s, []) := by
  rw [List.get?_eq_getElem?] at hget
  simp [step, hget]

theorem step_stream_eq (s : AppState) (k : Nat)
    (result : Option MessageOutput) (error : Option String)
    (upd : List ChatMessage) (o : StreamOutcome)
    (hget : s.closures.get? k = some upd)
    (ho : onStreamResult upd result error = some o) :
    step s (Event.stream k result error) =
      ({ s with
          loading := false
          messages := o.setMessagesTo.getD s.messages
          closures := s.closures.set k o.updatedMessages },
       o.effects) := by
  rw [List.get?_eq_getElem?] at hget
  simp [step, hget, ho]

theorem step_stream_undefined (s : AppState) (k : Nat)
    (result : Option MessageOutput) (error : Option String)
    (upd : List ChatMessage)
    (hget : s.closures.get? k = some upd)
    (ho : onStreamResult upd result error = none) :
    step s (Event.stream k result error) = (s, []) := by
  rw [List.get?_eq_getElem?] at hget
  simp [step, hget, ho]

theorem step_inv (s : AppState) (e : Event) (h : StateInv s) :
    StateInv (step s e).1 := by
  obtain ⟨hm, hc⟩ := h
  cases e with
  | inputChange v => exact ⟨hm, hc⟩
  | generateThrow => exact ⟨hm, hc⟩
  | startGameClick =>
    cases hp : s.aiPresent with
    | false =>
      rw [step_startGame_absent s hp]
      exact ⟨hm, hc⟩
    | true =>
      rw [step_startGame_present s hp]
      exact handleNewMessage_inv s "Start Game" ⟨hm, hc⟩
  | sendMessageSubmit =>
    by_cases hv : s.inputValue = ""
    · rw [step_send_empty s hv]
      exact ⟨hm, hc⟩
    · cases hp : s.aiPresent with
      | false =>
        rw [step_send_absent s hv hp]
        exact ⟨hm, hc⟩
      | true =>
        rw [step_send_present s hv hp]
        exact handleNewMessage_inv s s.inputValue ⟨hm, hc⟩
  | stream k result error =>
    cases hget : s.closures.get? k with
    | none =>
      rw [step_stream_noclosure s k result error hget]
      exact ⟨hm, hc⟩
    | some upd =>
      cases ho : onStreamResult upd result error with
      | none =>
        rw [step_stream_undefined s k result error upd hget ho]
        exact ⟨hm, hc⟩
      | some o =>
        rw [step_stream_eq s k result error upd o hget ho]
        have hu := hc upd (List.get?_mem hget)
        have hin := onStreamResult_inv upd result error o hu.1 hu.2 ho
        refine ⟨?_, ?_⟩
        · intro m hm'
          cases hset : o.setMessagesTo with
          | none =>
            rw [hset] at hm'
            exact hm m hm'
          | some l =>
            rw [hset] at hm'
            rw [hin.2.2 l hset] at hm'
            exact hin.2.1 m hm'
        · intro l hl
          rcases List.mem_or_eq_of_mem_set hl with h' | h'
          · exact hc l h'
          · cases h'
            exact ⟨hin.1, hin.2.1⟩

theorem run_inv (events : List Event) (s : AppState) (h : StateInv s) :
    StateInv (run s events) := by
  induction events generalizing s with
  | nil => exact h
  | cons e es ih => exact ih (step s e).1 (step_inv s e h)

theorem load_inv (present : Bool) : StateInv (load present).1 := by
  refine ⟨?_, ?_⟩ <;> intro x hx <;> simp [load, initialState] at hx

theorem reachable_inv (present : Bool) (s : AppState)
    (h : Reachable present s) : StateInv s := by
  obtain ⟨events, rfl⟩ := h
  exact run_inv events (load present).1 (load_inv present)

theorem step_preserves_aiPresent (s : AppState) (e : Event) :
    (step s e).1.aiPresent = s.aiPresent := by
  cases e with
  | inputChange v => rfl
  | generateThrow => rfl
  | startGameClick =>
    cases hp : s.aiPresent with
    | false => rw [step_startGame_absent s hp]; exact hp
    | true => rw [step_startGame_present s hp]; exact hp
  | sendMessageSubmit =>
    by_cases hv : s.inputValue = ""
    · rw [step_send_empty s hv]
    · cases hp : s.aiPresent with
      | false => rw [step_send_absent s hv hp]; exact hp
      | true => rw [step_send_present s hv hp]; exact hp
  | stream k result error =>
    cases hget : s.closures.get? k with
    | none => rw [step_stream_noclosure s k result error hget]
    | some upd =>
      cases ho : onStreamResult upd result error with
      | none => rw [step_stream_undefined s k result error upd hget ho]
      | some o => rw [step_stream_eq s k result error upd o hget ho]

theorem onStreamResult_effects_shape (upd : List ChatMessage)
    (result : Option MessageOutput) (error : Option String) (o : StreamOutcome)
    (ho : onStreamResult upd result error = some o) :
    o.effects = [] ∨ o.effects = [Effect.toastErrorStreaming] := by
  by_cases herr : jsTruthyStr error = true
  · rw [onStreamResult_error upd result error herr] at ho
    cases ho
    exact Or.inr rfl
  · have herr' : jsTruthyStr error = false := by
      revert herr; cases jsTruthyStr error <;> simp
    cases result with
    | none =>
      rw [onStreamResult_none upd error herr'] at ho
      cases ho
      exact Or.inl rfl
    | some r =>
      by_cases hne : upd = []
      · subst hne
        rw [onStreamResult] at ho
        simp [herr'] at ho
      · obtain ⟨nt, hnt, _, _⟩ := onStreamResult_chunk upd r error herr' hne
        rw [hnt] at ho
        cases ho
        exact Or.inl rfl

/-- Every `generateText` effect a step can emit comes from `handleNewMessage`:
its input is the system prompt followed by the transcript extended with a new
user message, its options carry temperature, maxTokens and the fresh
`onStreamResult` closure, and that closure is registered last. -/
theorem generateText_effect_shape (s : AppState) (e : Event)
    (input : GenerateTextInput) (options : StreamingOptions)
    (h : Effect.generateText input options ∈ (step s e).2) :
    ∃ v : String,
      input = { messages := { role := Role.system, content := systemPrompt } ::
          (s.messages ++ [{ role := Role.user, content := v }]) } ∧
      options = { temperature := 7 / 10
                  maxTokens := 1000
                  onStreamResultClosure :=
                    s.messages ++ [{ role := Role.user, content := v }] } ∧
      (step s e).1.closures =
        s.closures ++ [s.messages ++ [{ role := Role.user, content := v }]] := by
  cases e with
  | inputChange v =>
    rw [step_inputChange] at h
    simp at h
  | generateThrow =>
    rw [step_generateThrow] at h
    simp at h
  | startGameClick =>
    cases hp : s.aiPresent with
    | false =>
      rw [step_startGame_absent s hp] at h
      simp at h
    | true =>
      rw [step_startGame_present s hp] at h
      rw [handleNewMessage_effects] at h
      have h' := List.mem_singleton.mp h
      injection h' with h1 h2
      refine ⟨"Start Game", h1, h2, ?_⟩
      rw [step_startGame_present s hp, handleNewMessage_state]
  | sendMessageSubmit =>
    by_cases hv : s.inputValue = ""
    · rw [step_send_empty s hv] at h
      simp at h
    · cases hp : s.aiPresent with
      | false =>
        rw [step_send_absent s hv hp] at h
        simp at h
      | true =>
        rw [step_send_present s hv hp] at h
        rw [handleNewMessage_effects] at h
        have h' := List.mem_singleton.mp h
        injection h' with h1 h2
        refine ⟨s.inputValue, h1, h2, ?_⟩
        rw [step_send_present s hv hp, handleNewMessage_state]
  | stream k result error =>
    cases hget : s.closures.get? k with
    | none =>
      rw [step_stream_noclosure s k result error hget] at h
      simp at h
    | some upd =>
      cases ho : onStreamResult upd result error with
      | none =>
        rw [step_stream_undefined s k result error upd hget ho] at h
        simp at h
      | some o =>
        rw [step_stream_eq s k result error upd o hget ho] at h
        rcases onStreamResult_effects_shape upd result error o ho with he | he <;>
          rw [he] at h <;> simp at h

/-- A concrete session: load with the extension present, click Start Game,
receive one streamed chunk, type into the input field. -/
def sampleEvents : List Event :=
  [Event.startGameClick,
   Event.stream 0
     (some { message :=
       { role := Role.assistant, content := "You wake in Greenhaven." } })
     none,
   Event.inputChange "look around"]

/-- The state after `sampleEvents`. -/
def sampleState : AppState := run (load true).1 sampleEvents

/-- C1: a player send (chat-form submission with nonempty typed input and
the extension present) issues exactly one `generateText` request, and its
message list is the fixed system prompt, then the entire prior transcript,
then one new user message holding the typed input, in that order. -/
theorem sendMessage_issues_single_generateText (s : AppState) (v : String)
    (hv : s.inputValue = v) (hne : v ≠ "") (hp : s.aiPresent = true) :
    (step s Event.sendMessageSubmit).2 =
      [Effect.generateText
        { messages := { role := Role.system, content := systemPrompt } ::
            (s.messages ++ [{ role := Role.user, content := v }]) }
        { temperature := 7 / 10
          maxTokens := 1000
          onStreamResultClosure :=
            s.messages ++ [{ role := Role.user, content := v }] }] := by
  subst hv
  rw [step_send_present s hne hp, handleNewMessage_effects]

theorem sendMessage_issues_single_generateText_witness :
    (step sampleState Event.sendMessageSubmit).2 =
      [Effect.generateText
        { messages := { role := Role.system, content := systemPrompt } ::
            (sampleState.messages ++
              [{ role := Role.user, content := "look around" }]) }
        { temperature := 7 / 10
          maxTokens := 1000
          onStreamResultClosure :=
            sampleState.messages ++
              [{ role := Role.user, content := "look around" }] }] :=
  sendMessage_issues_single_generateText sampleState "look around" rfl
    (by decide) rfl

/-- C2: a non-error streaming callback invocation carrying a result appends
a fresh assistant message holding exactly the chunk content when the last
working-transcript message is a user message, and otherwise appends the
chunk content to the final message's content, changing no other message;
the updated list is what is passed to `setMessages`. -/
theorem streamChunk_appends_or_extends_last (upd : List ChatMessage)
    (r : MessageOutput) (error : Option String)
    (herr : jsTruthyStr error = false) (hne : upd ≠ []) :
    ∃ nt : List ChatMessage,
      onStreamResult upd (some r) error =
        some { updatedMessages := nt
               setMessagesTo := some nt
               effects := [] } ∧
      ((upd.getLast hne).role = Role.user →
        nt = upd ++ [{ role := Role.assistant, content := r.message.content }]) ∧
      ((upd.getLast hne).role ≠ Role.user →
        nt = upd.dropLast ++
          [{ upd.getLast hne with
              content := (upd.getLast hne).content ++ r.message.content }]) :=
  onStreamResult_chunk upd r error herr hne

theorem streamChunk_appends_or_extends_last_witness :
    ∃ nt : List ChatMessage,
      onStreamResult [{ role := Role.user, content := "hi" }]
        (some { message := { role := Role.assistant, content := "lo" } })
        none =
        some { updatedMessages := nt
               setMessagesTo := some nt
               effects := [] } ∧
      (([({ role := Role.user, content := "hi" } : ChatMessage)].getLast
          (by decide)).role = Role.user →
        nt = [({ role := Role.user, content := "hi" } : ChatMessage)] ++
          [{ role := Role.assistant, content := "lo" }]) ∧
      (([({ role := Role.user, content := "hi" } : ChatMessage)].getLast
          (by decide)).role ≠ Role.user →
        nt = [({ role := Role.user, content := "hi" } : ChatMessage)].dropLast ++
          [{ [({ role := Role.user, content := "hi" } : ChatMessage)].getLast
              (by decide) with
              content :=
                ([({ role := Role.user, content := "hi" } : ChatMessage)].getLast
                  (by decide)).content ++ "lo" }]) :=
  streamChunk_appends_or_extends_last
    [{ role := Role.user, content := "hi" }]
    { message := { role := Role.assistant, content := "lo" } }
    none rfl (by decide)

/-- C4: clicking Start Game when the extension probe returned null shows
the install prompt, issues no `generateText` call, leaves the transcript
untouched and leaves the game-started flag unset. -/
theorem startGame_absent_shows_install_prompt (s : AppState)
    (hp : s.aiPresent = false) :
    (step s Event.startGameClick).2 = [Effect.toastInstallPrompt] ∧
    (∀ input options,
      Effect.generateText input options ∉ (step s Event.startGameClick).2) ∧
    (step s Event.startGameClick).1.messages = s.messages ∧
    (step s Event.startGameClick).1.isGameStarted = s.isGameStarted := by
  rw [step_startGame_absent s hp]
  refine ⟨rfl, ?_, rfl, rfl⟩
  intro input options h
  simp at h

theorem startGame_absent_shows_install_prompt_witness :
    (step (load false).1 Event.startGameClick).2 = [Effect.toastInstallPrompt] ∧
    (∀ input options,
      Effect.generateText input options ∉
        (step (load false).1 Event.startGameClick).2) ∧
    (step (load false).1 Event.startGameClick).1.messages =
      (load false).1.messages ∧
    (step (load false).1 Event.startGameClick).1.isGameStarted =
      (load false).1.isGameStarted :=
  startGame_absent_shows_install_prompt (load false).1 rfl

/-- C8: submitting the chat form while the input string is empty is a
no-op: the state (transcript, loading flag, input value) is unchanged and
no effect — in particular no `generateText` request — is produced. -/
theorem empty_input_submit_noop (s : AppState) (hv : s.inputValue = "") :
    step s Event.sendMessageSubmit = (s, []) :=
  step_send_empty s hv

theorem empty_input_submit_noop_witness :
    step (load true).1 Event.sendMessageSubmit = ((load true).1, []) :=
  empty_input_submit_noop (load true).1 rfl

/-- C10: the render function maps the transcript message at index 0 to an
empty element and every later message to a bubble showing its content. -/
theorem render_skips_first_message (m : ChatMessage)
    (rest : List ChatMessage) :
    renderMessages (m :: rest) =
      Rendered.empty ::
        rest.map (fun message => Rendered.bubble message.role message.content) := by
  rw [renderMessages, mapWithIndex_cons, if_pos rfl,
    mapWithIndex_bubble_shift rest 0]

/-- C5: on generation failure — the streaming callback reporting an error,
or `generateText` throwing — a transient error toast is the only effect,
the transcript is left unchanged, and no further `generateText` call is
made by the error handling. -/
theorem generation_failure_terminal (s : AppState) (k : Nat)
    (result : Option MessageOutput) (err : String) (upd : List ChatMessage)
    (hget : s.closures.get? k = some upd) (he : err ≠ "") :
    (step s (Event.stream k result (some err))).1.messages = s.messages ∧
    (step s (Event.stream k result (some err))).2 =
      [Effect.toastErrorStreaming] ∧
    (∀ input options, Effect.generateText input options ∉
      (step s (Event.stream k result (some err))).2) ∧
    (step s Event.generateThrow).1 = s ∧
    (step s Event.generateThrow).2 = [Effect.toastErrorGeneration] ∧
    (∀ input options, Effect.generateText input options ∉
      (step s Event.generateThrow).2) := by
  have herr : jsTruthyStr (some err) = true := by
    simp [jsTruthyStr, he]
  rw [step_stream_eq s k result (some err) upd _ hget
    (onStreamResult_error upd result (some err) herr)]
  refine ⟨rfl, rfl, ?_, rfl, rfl, ?_⟩
  · intro input options h
    simp at h
  · intro input options h
    rw [step_generateThrow] at h
    simp at h

theorem generation_failure_terminal_witness :
    (step sampleState (Event.stream 0 none (some "boom"))).1.messages =
      sampleState.messages ∧
    (step sampleState (Event.stream 0 none (some "boom"))).2 =
      [Effect.toastErrorStreaming] ∧
    (∀ input options, Effect.generateText input options ∉
      (step sampleState (Event.stream 0 none (some "boom"))).2) ∧
    (step sampleState Event.generateThrow).1 = sampleState ∧
    (step sampleState Event.generateThrow).2 =
      [Effect.toastErrorGeneration] ∧
    (∀ input options, Effect.generateText input options ∉
      (step sampleState Event.generateThrow).2) :=
  generation_failure_terminal sampleState 0 none "boom"
    [{ role := Role.user, content := "Start Game" },
     { role := Role.assistant, content := "You wake in Greenhaven." }]
    rfl (by decide)

/-- C6: the detection probe is the `init` function of the mount-time
`useEffect` (modelled by `load`, run exactly once before any event): it
shows the success toast when the extension is detected and the persistent
install prompt otherwise; no later event changes the stored probe result,
and for a send with typed input that stored result alone decides whether a
`generateText` request is issued. -/
theorem probe_result_decides_sends (present : Bool) (s : AppState)
    (e : Event) (hv : s.inputValue ≠ "") :
    (load present).2 =
      (if present then [Effect.toastSuccessDetected]
       else [Effect.toastInstallPrompt]) ∧
    (step s e).1.aiPresent = s.aiPresent ∧
    ((∃ input options,
        Effect.generateText input options ∈
          (step s Event.sendMessageSubmit).2)
      ↔ s.aiPresent = true) := by
  refine ⟨rfl, step_preserves_aiPresent s e, ?_⟩
  cases hp : s.aiPresent with
  | true =>
    rw [step_send_present s hv hp, handleNewMessage_effects]
    simp
  | false =>
    rw [step_send_absent s hv hp]
    simp

theorem probe_result_decides_sends_witness :
    (load true).2 =
      (if true then [Effect.toastSuccessDetected]
       else [Effect.toastInstallPrompt]) ∧
    (step sampleState Event.generateThrow).1.aiPresent =
      sampleState.aiPresent ∧
    ((∃ input options,
        Effect.generateText input options ∈
          (step sampleState Event.sendMessageSubmit).2)
      ↔ sampleState.aiPresent = true) :=
  probe_result_decides_sends true sampleState Event.generateThrow (by decide)

/-- C7: every `generateText` call carries a streaming-options object whose
temperature is 0.7, whose maxTokens is 1000, and whose `onStreamResult`
callback is the freshly created closure — registered as the newest live
closure of the post-step state. -/
theorem generateText_options_fixed (s : AppState) (e : Event)
    (input : GenerateTextInput) (options : StreamingOptions)
    (h : Effect.generateText input options ∈ (step s e).2) :
    options.temperature = 7 / 10 ∧ options.maxTokens = 1000 ∧
    (step s e).1.closures.getLast? = some options.onStreamResultClosure := by
  obtain ⟨v, _, hop, hcl⟩ := generateText_effect_shape s e input options h
  subst hop
  refine ⟨rfl, rfl, ?_⟩
  rw [hcl]
  exact List.getLast?_concat _

/-- The state after loading with the extension present and typing "go". -/
def typedState : AppState := run (load true).1 [Event.inputChange "go"]

theorem generateText_options_fixed_witness :
    ({ temperature := 7 / 10
       maxTokens := 1000
       onStreamResultClosure :=
         typedState.messages ++ [{ role := Role.user, content := "go" }] }
        : StreamingOptions).temperature = 7 / 10 ∧
    ({ temperature := 7 / 10
       maxTokens := 1000
       onStreamResultClosure :=
         typedState.messages ++ [{ role := Role.user, content := "go" }] }
        : StreamingOptions).maxTokens = 1000 ∧
    (step typedState Event.sendMessageSubmit).1.closures.getLast? =
      some ({ temperature := 7 / 10
              maxTokens := 1000
              onStreamResultClosure :=
                typedState.messages ++ [{ role := Role.user, content := "go" }] }
             : StreamingOptions).onStreamResultClosure :=
  generateText_options_fixed typedState Event.sendMessageSubmit
    { messages := { role := Role.system, content := systemPrompt } ::
        (typedState.messages ++ [{ role := Role.user, content := "go" }]) }
    { temperature := 7 / 10
      maxTokens := 1000
      onStreamResultClosure :=
        typedState.messages ++ [{ role := Role.user, content := "go" }] }
    (by
      rw [step_send_present typedState (by decide) rfl,
        handleNewMessage_effects]
      exact List.mem_singleton.mpr rfl)

/-- C9: in every reachable state all transcript messages have role user or
assistant — no system message is ever stored — while each `generateText`
request prepends the fixed system prompt afresh, followed only by
user/assistant messages. -/
theorem transcript_roles_and_request_shape (present : Bool) (s : AppState)
    (hr : Reachable present s) :
    (∀ m ∈ s.messages, m.role = Role.user ∨ m.role = Role.assistant) ∧
    (∀ (e : Event) (input : GenerateTextInput) (options : StreamingOptions),
      Effect.generateText input options ∈ (step s e).2 →
      ∃ tail, input.messages =
          { role := Role.system, content := systemPrompt } :: tail ∧
        ∀ m ∈ tail, m.role = Role.user ∨ m.role = Role.assistant) := by
  have hinv := reachable_inv present s hr
  refine ⟨hinv.1, ?_⟩
  intro e input options h
  obtain ⟨v, hin, _, _⟩ := generateText_effect_shape s e input options h
  subst hin
  refine ⟨s.messages ++ [{ role := Role.user, content := v }], rfl, ?_⟩
  intro m hm
  rcases List.mem_append.mp hm with h' | h'
  · exact hinv.1 m h'
  · rcases List.mem_singleton.mp h' with rfl
    exact Or.inl rfl

theorem transcript_roles_and_request_shape_witness :
    (∀ m ∈ sampleState.messages,
      m.role = Role.user ∨ m.role = Role.assistant) ∧
    (∀ (e : Event) (input : GenerateTextInput) (options : StreamingOptions),
      Effect.generateText input options ∈ (step sampleState e).2 →
      ∃ tail, input.messages =
          { role := Role.system, content := systemPrompt } :: tail ∧
        ∀ m ∈ tail, m.role = Role.user ∨ m.role = Role.assistant) :=
  transcript_roles_and_request_shape true sampleState ⟨sampleEvents, rfl⟩

theorem transcriptStep_length (old new : List ChatMessage)
    (h : TranscriptStep old new) :
    new.length = old.length + 1 ∨ new.length = old.length := by
  rcases h with ⟨m, rfl⟩ | ⟨pre, last, extra, rfl, _, rfl⟩
  · left; simp
  · right; simp

/-- A session in which the player sends a new message after the first
streamed chunk of the previous interaction arrived (the first chunk resets
the loading flag, so the form accepts the send) while that earlier stream
is still live. -/
def staleEvents : List Event :=
  [Event.startGameClick,
   Event.stream 0
     (some { message := { role := Role.assistant, content := "a" } }) none,
   Event.inputChange "B",
   Event.sendMessageSubmit]

/-- The state after `staleEvents`. -/
def staleState : AppState := run (load true).1 staleEvents

/-- A late chunk of the superseded first stream (closure index 0). -/
def staleChunk : Event :=
  Event.stream 0
    (some { message := { role := Role.assistant, content := "c" } }) none

/-- C3 counterexample: from the reachable state `staleState`, the late
chunk of the superseded stream overwrites the transcript with the stale
closure's working copy, discarding the player's message "B" — a transition
that neither leaves the message list unchanged, appends a message, nor
extends the final assistant message. -/
theorem staleStream_rewinds_transcript :
    Reachable true staleState ∧
    ¬ ((step staleState staleChunk).1.messages = staleState.messages ∨
       TranscriptStep staleState.messages
         (step staleState staleChunk).1.messages) := by
  refine ⟨⟨staleEvents, rfl⟩, ?_⟩
  have hold : staleState.messages =
      [{ role := Role.user, content := "Start Game" },
       { role := Role.assistant, content := "a" },
       { role := Role.user, content := "B" }] := by decide
  have hnew : (step staleState staleChunk).1.messages =
      [{ role := Role.user, content := "Start Game" },
       { role := Role.assistant, content := "ac" }] := by decide
  intro h
  rcases h with heq | hts
  · rw [hold, hnew] at heq
    exact absurd heq (by decide)
  · have hlen := transcriptStep_length _ _ hts
    rw [hold, hnew] at hlen
    rcases hlen with h' | h' <;> simp at h'

/-- C3 (amended): the transcript is append-only except for in-place content
growth of the final assistant message, provided every firing streaming
callback's working transcript agrees with the current transcript — which
holds whenever no send interleaves an active stream.  A callback of a
superseded interaction may instead overwrite the transcript with its own
working copy (see the counterexample). -/
theorem transcript_append_only_without_stale_streams (present : Bool)
    (s : AppState) (e : Event) (hr : Reachable present s)
    (hsync : ∀ k result error upd, e = Event.stream k result error →
      s.closures.get? k = some upd → upd = s.messages) :
    (step s e).1.messages = s.messages ∨
    TranscriptStep s.messages (step s e).1.messages := by
  cases e with
  | inputChange v => left; rfl
  | generateThrow => left; rfl
  | startGameClick =>
    cases hp : s.aiPresent with
    | false => left; rw [step_startGame_absent s hp]
    | true =>
      right
      rw [step_startGame_present s hp]
      exact Or.inl ⟨{ role := Role.user, content := "Start Game" }, rfl⟩
  | sendMessageSubmit =>
    by_cases hv : s.inputValue = ""
    · left; rw [step_send_empty s hv]
    · cases hp : s.aiPresent with
      | false => left; rw [step_send_absent s hv hp]
      | true =>
        right
        rw [step_send_present s hv hp]
        exact Or.inl ⟨{ role := Role.user, content := s.inputValue }, rfl⟩
  | stream k result error =>
    cases hget : s.closures.get? k with
    | none => left; rw [step_stream_noclosure s k result error hget]
    | some upd =>
      have hupd : upd = s.messages := hsync k result error upd rfl hget
      have hinv := reachable_inv present s hr
      have hu := hinv.2 upd (List.get?_mem hget)
      by_cases herr : jsTruthyStr error = true
      · left
        rw [step_stream_eq s k result error upd _ hget
          (onStreamResult_error upd result error herr)]
        rfl
      · have herr' : jsTruthyStr error = false := by
          revert herr; cases jsTruthyStr error <;> simp
        cases result with
        | none =>
          left
          rw [step_stream_eq s k none error upd _ hget
            (onStreamResult_none upd error herr')]
          rfl
        | some r =>
          obtain ⟨nt, hnt, hus, hna⟩ :=
            onStreamResult_chunk upd r error herr' hu.1
          rw [step_stream_eq s k (some r) error upd _ hget hnt]
          right
          show TranscriptStep s.messages nt
          by_cases hrole : (upd.getLast hu.1).role = Role.user
          · left
            refine ⟨{ role := Role.assistant, content := r.message.content }, ?_⟩
            rw [hus hrole, hupd]
          · right
            refine ⟨upd.dropLast, upd.getLast hu.1, r.message.content,
              ?_, ?_, ?_⟩
            · rw [← hupd]
              exact (List.dropLast_append_getLast hu.1).symm
            · rcases hu.2 _ (List.getLast_mem hu.1) with h' | h'
              · exact absurd h' hrole
              · exact h'
            · exact hna hrole

/-- A well-synchronised chunk of the one live stream of `sampleState`. -/
def syncChunk : Event :=
  Event.stream 0
    (some { message := { role := Role.assistant, content := " You see trees." } })
    none

theorem transcript_append_only_without_stale_streams_witness :
    (step sampleState syncChunk).1.messages = sampleState.messages ∨
    TranscriptStep sampleState.messages
      (step sampleState syncChunk).1.messages :=
  transcript_append_only_without_stale_streams true sampleState syncChunk
    ⟨sampleEvents, rfl⟩
    (by
      intro k result error upd he hg
      cases he
      injection hg with h
      exact h.symm)
